import Mathlib

/-
  Verification development for the fireworks terminal animation
  (src/main.go).  The repository holds two variants of the program:

  * a tcell-based variant with `particle`, `firework`, `rocket`
    structures, `newFirework`, `firework.update`, `newRocket`, and a
    main event loop that advances rockets and fireworks once per frame
    tick (src/main.go lines 1-202);
  * an ANSI-escape variant whose `explode` function holds the particle
    loop inline (src/main.go lines 203-441).

  Continuous quantities (Go float64) are modelled over ℚ.  The values
  produced by the random number generator are modelled as an explicit
  tape of draws:  `rand.Intn n` applied to a tape value `d` is `d % n`,
  `rand.Float64` draws are ℚ parameters (constrained to `[0,1)` in the
  theorems), and the `cos`/`sin` of the drawn angle are carried on the
  tape directly as a pair of ℚ values.
-/

namespace Fireworks

/-- A burst particle: position, velocity, glyph (index into the fixed
five-character set), color (index into the fixed seven-color palette),
and remaining lifetime, mirroring the Go `particle` struct. -/
structure particle where
  x : ℚ
  y : ℚ
  vx : ℚ
  vy : ℚ
  char : Fin 5
  color : Fin 7
  lifetime : ℤ
deriving DecidableEq, Repr

/-- A burst: its live particles and its age in frames, mirroring the Go
`firework` struct. -/
structure firework where
  particles : List particle
  frames : ℕ
deriving DecidableEq, Repr

/-- An ascending rocket, mirroring the Go `rocket` struct. -/
structure rocket where
  x : ℤ
  y : ℤ
  targetY : ℤ
  color : Fin 7
  trailTimer : ℤ
deriving DecidableEq, Repr

/-- The position/velocity part of one particle update, shared verbatim by
both variants: `x += vx; y += vy; vy += 0.1`. -/
def moveParticle (p : particle) : particle :=
  { p with x := p.x + p.vx, y := p.y + p.vy, vy := p.vy + 1/10 }

/-- One particle step of the tcell variant (`firework.update` body):
position and velocity update followed by `lifetime--`, unconditionally. -/
def stepParticle (p : particle) : particle :=
  { moveParticle p with lifetime := p.lifetime - 1 }

/-- The tcell variant's `firework.update`: every particle is stepped, the
survivors are exactly those whose decremented lifetime is positive, and
the frame counter is incremented. -/
def firework.update (fw : firework) : firework :=
  { particles := (fw.particles.map stepParticle).filter
      (fun p => decide (0 < p.lifetime)),
    frames := fw.frames + 1 }

/-- `rand.Intn n` on tape value `d`: a value in `[0, n)` for `n > 0`. -/
def intn (n d : ℕ) : ℕ := d % n

/-- The random draws consumed for one particle of a new burst:
`cos`/`sin` of the drawn angle, the unit `rand.Float64` draw feeding the
speed, and the `rand.Intn` tape values for the glyph and lifetime. -/
structure particleDraw where
  cosA : ℚ
  sinA : ℚ
  speedU : ℚ
  charD : ℕ
  lifeD : ℕ

/-- The random draws consumed by one `newFirework` call: the particle
count and color tape values, and a stream of per-particle draws. -/
structure fireworkDraw where
  countD : ℕ
  colorD : ℕ
  pdraws : ℕ → particleDraw

/-- `speed := rand.Float64()*2 + 1`. -/
def drawSpeed (d : particleDraw) : ℚ := d.speedU * 2 + 1

/-- One particle of a fresh burst, from `newFirework`'s loop body:
spawned at the explosion center, with `vx = speed*cos(angle)`,
`vy = speed*sin(angle)*0.5`, a random glyph, the burst's shared color,
and `lifetime = rand.Intn(20) + 10`. -/
def mkParticle (x y : ℚ) (c : Fin 7) (d : particleDraw) : particle :=
  { x := x, y := y,
    vx := drawSpeed d * d.cosA,
    vy := drawSpeed d * d.sinA * (1/2),
    char := ⟨d.charD % 5, by omega⟩,
    color := c,
    lifetime := ((d.lifeD % 20 : ℕ) : ℤ) + 10 }

/-- `n := rand.Intn(30) + 20`: the particle count of a fresh burst. -/
def burstCount (t : fireworkDraw) : ℕ := intn 30 t.countD + 20

/-- The single color shared by all particles of a fresh burst. -/
def burstColor (t : fireworkDraw) : Fin 7 := ⟨t.colorD % 7, by omega⟩

/-- The Go `newFirework(x, y)`: `burstCount t` particles at the
explosion center sharing one color, frame counter zero. -/
def newFirework (x y : ℚ) (t : fireworkDraw) : firework :=
  { particles := (List.range (burstCount t)).map
      (fun i => mkParticle x y (burstColor t) (t.pdraws i)),
    frames := 0 }

/-- The Go `newRocket(x, targetY, height)`: starts at `y = height - 2`
with a random color and a zero trail counter. -/
def newRocket (x targetY height : ℤ) (cd : ℕ) : rocket :=
  { x := x, y := height - 2, targetY := targetY,
    color := ⟨cd % 7, by omega⟩, trailTimer := 0 }

/-- One rocket step of the main loop's ascending branch:
`r.y--; r.trailTimer++`. -/
def rocket.step (r : rocket) : rocket :=
  { r with y := r.y - 1, trailTimer := r.trailTimer + 1 }

/-- Whether a burst survives the active-set rebuild of the tcell main
loop: `fireworks[i].frames < 60 && len(fireworks[i].particles) > 0`. -/
def keepFirework (fw : firework) : Bool :=
  decide (fw.frames < 60 ∧ 0 < fw.particles.length)

/-- The firework half of one frame tick of the tcell main loop: every
burst is updated, then only those passing `keepFirework` stay active. -/
def advanceFireworks (l : List firework) : List firework :=
  (l.map firework.update).filter keepFirework

/-- The bursts spawned by one frame tick's rocket loop: each rocket that
has reached its target (`y <= targetY`) contributes one new burst at its
current position, consuming the next explosion tape entry `ts i`. -/
def explodedBursts (ts : ℕ → fireworkDraw) (i : ℕ) : List rocket → List firework
  | [] => []
  | r :: rs =>
    if r.targetY < r.y then explodedBursts ts i rs
    else newFirework (r.x : ℚ) (r.y : ℚ) (ts i) :: explodedBursts ts (i + 1) rs

/-- The simulation state: the active rocket and burst collections of the
tcell main loop. -/
structure simState where
  rockets : List rocket
  fireworks : List firework
deriving DecidableEq, Repr

/-- One frame tick of the tcell main loop: ascending rockets are stepped
and kept, arrived rockets are replaced by bursts appended to the burst
list, and then every burst (the fresh ones included) is advanced and
filtered. -/
def tick (ts : ℕ → fireworkDraw) (s : simState) : simState :=
  { rockets := (s.rockets.filter (fun r => decide (r.targetY < r.y))).map rocket.step,
    fireworks := advanceFireworks (s.fireworks ++ explodedBursts ts 0 s.rockets) }

/-- The tcell mouse-click handler: `Button1` appends one new rocket with
`targetY` equal to the click row; nothing else changes. -/
def clickSpawn (x y height : ℤ) (cd : ℕ) (s : simState) : simState :=
  { s with rockets := s.rockets ++ [newRocket x y height cd] }

/-- Go `math.Round` on the ℚ model: nearest integer, half away from
zero (for negative arguments, `⌈q - 1/2⌉ = -⌊1/2 - q⌋`). -/
def goRound (q : ℚ) : ℤ := if 0 ≤ q then ⌊q + 1/2⌋ else -⌊1/2 - q⌋

/-- The bounds test applied to a particle's rounded position before a
cell is written (tcell render loop) or before `lifetime--` (ANSI
`explode`). -/
def inBoundsQ (w h : ℤ) (p : particle) : Prop :=
  0 ≤ goRound p.x ∧ goRound p.x < w ∧ 0 ≤ goRound p.y ∧ goRound p.y < h

instance (w h : ℤ) (p : particle) : Decidable (inBoundsQ w h p) := by
  unfold inBoundsQ; infer_instance

/-- The cells written for one burst by the tcell render loop: one cell
per particle whose rounded position is inside the grid. -/
def renderCells (w h : ℤ) (fw : firework) : List (ℤ × ℤ × Fin 5 × Fin 7) :=
  fw.particles.filterMap (fun p =>
    if inBoundsQ w h p then some (goRound p.x, goRound p.y, p.char, p.color)
    else none)

/-- The effect of one frame of the ANSI variant's `explode` loop on a
single particle slot: nothing happens unless the lifetime is positive;
the position/velocity update always runs then, but `lifetime--` runs
only when the updated rounded position is inside the grid. -/
def explodeStep (w h : ℤ) (p : particle) : particle :=
  if 0 < p.lifetime then
    let p1 := moveParticle p
    if inBoundsQ w h p1 then { p1 with lifetime := p1.lifetime - 1 } else p1
  else p

/-- One frame of the ANSI variant's `explode` loop on the particle list:
the survivors are exactly the particles that were alive and landed in
bounds after the move, with their lifetime decremented. -/
def explodeFrame (w h : ℤ) (ps : List particle) : List particle :=
  ps.filterMap (fun p =>
    if 0 < p.lifetime then
      let p1 := moveParticle p
      if inBoundsQ w h p1 then some { p1 with lifetime := p1.lifetime - 1 }
      else none
    else none)

/-- The tcell auto-launch column: `rand.Intn(width-4) + 2`. -/
def launchX (w d : ℕ) : ℕ := intn (w - 4) d + 2

/-- The tcell auto-launch target row: `rand.Intn(height/3) + height/4`. -/
def launchTargetY (h d : ℕ) : ℕ := intn (h / 3) d + h / 4

/-- The ANSI variant's explosion row: `rand.Intn(height/2) + height/4`. -/
def explosionYdraw (h d : ℕ) : ℕ := intn (h / 2) d + h / 4

/-- Retirement condition as the specification words it: age at least 60,
or age past the 10-frame grace period with no particles left.  Stated
for comparison with the code's `keepFirework`. -/
def specRetire (age count : ℕ) : Prop := 60 ≤ age ∨ (10 < age ∧ count = 0)

instance (age count : ℕ) : Decidable (specRetire age count) := by
  unfold specRetire; infer_instance

/-! ### General lemmas about the tcell tick -/

theorem update_particles_length (fw : firework) :
    (firework.update fw).particles.length ≤ fw.particles.length := by
  calc ((fw.particles.map stepParticle).filter
          (fun p => decide (0 < p.lifetime))).length
      ≤ (fw.particles.map stepParticle).length := List.length_filter_le _ _
    _ = fw.particles.length := List.length_map _ _

theorem mem_advanceFireworks {g : firework} {l : List firework} :
    g ∈ advanceFireworks l ↔
      (∃ f ∈ l, firework.update f = g) ∧ (g.frames < 60 ∧ 0 < g.particles.length) := by
  simp [advanceFireworks, keepFirework, List.mem_filter]

theorem update_frames (fw : firework) :
    (firework.update fw).frames = fw.frames + 1 := rfl

theorem frames_mem_iterate (n : ℕ) :
    ∀ (l : List firework) (g : firework), g ∈ advanceFireworks^[n] l →
      ∃ f ∈ l, g.frames = f.frames + n := by
  induction n with
  | zero =>
    intro l g hg
    exact ⟨g, by simpa using hg, rfl⟩
  | succ n ih =>
    intro l g hg
    rw [Function.iterate_succ_apply] at hg
    obtain ⟨f', hf', hfr⟩ := ih _ g hg
    obtain ⟨⟨f, hf, hupd⟩, -, -⟩ := mem_advanceFireworks.mp hf'
    refine ⟨f, hf, ?_⟩
    have : f'.frames = f.frames + 1 := by rw [← hupd, update_frames]
    omega

theorem advanceFireworks_iterate_61 (fw : firework) (h0 : fw.frames = 0) :
    advanceFireworks^[61] [fw] = [] := by
  rw [List.eq_nil_iff_forall_not_mem]
  intro g hg
  obtain ⟨f, hf, hfr⟩ := frames_mem_iterate 61 [fw] g hg
  rw [List.mem_singleton] at hf
  subst hf
  rw [h0] at hfr
  rw [show (61 : ℕ) = 60 + 1 from rfl, Function.iterate_succ_apply'] at hg
  have h2 := (mem_advanceFireworks.mp hg).2.1
  omega

theorem tick_nil_rockets (ts : ℕ → fireworkDraw) (l : List firework) :
    tick ts ⟨[], l⟩ = ⟨[], advanceFireworks l⟩ := by
  simp [tick, explodedBursts]

theorem tick_iterate_nil_rockets (ts : ℕ → fireworkDraw) (n : ℕ) (l : List firework) :
    (tick ts)^[n] ⟨[], l⟩ = ⟨[], advanceFireworks^[n] l⟩ := by
  induction n with
  | zero => rfl
  | succ n ih =>
    rw [Function.iterate_succ_apply', ih, tick_nil_rockets,
      Function.iterate_succ_apply']

theorem update_iterate_length_le (fw : firework) (m n : ℕ) (h : m ≤ n) :
    (firework.update^[n] fw).particles.length ≤
      (firework.update^[m] fw).particles.length := by
  induction n, h using Nat.le_induction with
  | base => exact le_rfl
  | succ n hmn ih =>
    rw [Function.iterate_succ_apply']
    exact (update_particles_length _).trans ih

/-! ### Claim theorems -/

/-- Claim C2, counterexample: a burst whose particle count reaches zero
at age 10 is removed from the active set by the tcell main loop, even
though its age is not past the 10-frame grace period, so the claim's
"kept" clause fails on the code. -/
theorem grace_period_counterexample :
    advanceFireworks [⟨[⟨0, 0, 0, 0, 0, 0, 1⟩], 9⟩] = []
    ∧ (firework.update ⟨[⟨0, 0, 0, 0, 0, 0, 1⟩], 9⟩).frames = 10
    ∧ (firework.update ⟨[⟨0, 0, 0, 0, 0, 0, 1⟩], 9⟩).particles.length = 0
    ∧ ¬ specRetire (firework.update ⟨[⟨0, 0, 0, 0, 0, 0, 1⟩], 9⟩).frames
        (firework.update ⟨[⟨0, 0, 0, 0, 0, 0, 1⟩], 9⟩).particles.length :=
  ⟨by decide, by decide, by decide, by decide⟩

/-- Claim C2, amended: after a tick of the tcell main loop an updated
burst is absent from the active set exactly when its age is at least 60
or its particle count is 0 — a burst with zero particles is retired at
any age, with no grace period. -/
theorem burst_retirement_iff (l : List firework) (g : firework)
    (hg : g ∈ l.map firework.update) :
    g ∉ advanceFireworks l ↔ (60 ≤ g.frames ∨ g.particles.length = 0) := by
  have : g ∈ advanceFireworks l ↔ (g.frames < 60 ∧ 0 < g.particles.length) := by
    rw [advanceFireworks, List.mem_filter]
    simp [keepFirework, hg]
  rw [this]
  omega

/-- Claim C2, witness for the amended theorem: an updated empty burst of
age 1 is retired. -/
theorem burst_retirement_iff_witness :
    (⟨[], 1⟩ : firework) ∉ advanceFireworks [⟨[], 0⟩] :=
  (burst_retirement_iff [⟨[], 0⟩] ⟨[], 1⟩ (by decide)).mpr (Or.inr rfl)

/-- Claim C4: a freshly spawned burst is gone from the active set after
61 ticks of the main loop, for every draw of its particles and every
explosion tape. -/
theorem burst_age_cap (ts : ℕ → fireworkDraw) (fw : firework) (h0 : fw.frames = 0) :
    (tick ts)^[61] ⟨[], [fw]⟩ = ⟨[], []⟩ := by
  rw [tick_iterate_nil_rockets, advanceFireworks_iterate_61 fw h0]

/-- Claim C4, witness: the cap at a concrete fresh burst and tape. -/
theorem burst_age_cap_witness :
    (tick (fun _ => ⟨0, 0, fun _ => ⟨0, 0, 0, 0, 0⟩⟩))^[61] ⟨[], [⟨[], 0⟩]⟩
      = ⟨[], []⟩ :=
  burst_age_cap _ _ rfl

/-- Claim C7: a burst built by `newFirework` has exactly `burstCount t`
particles at age 0, and the particle count never increases across any
sequence of `update` calls. -/
theorem burst_count_nonincreasing (x y : ℚ) (t : fireworkDraw) (fw : firework)
    (m n : ℕ) (hmn : m ≤ n) :
    (newFirework x y t).frames = 0
    ∧ (newFirework x y t).particles.length = burstCount t
    ∧ (firework.update^[n] fw).particles.length ≤
        (firework.update^[m] fw).particles.length :=
  ⟨rfl, by simp [newFirework], update_iterate_length_le fw m n hmn⟩

/-- Claim C7, witness: the count bound at a concrete burst and step
pair. -/
theorem burst_count_nonincreasing_witness :
    (firework.update^[2] ⟨[], 0⟩).particles.length ≤
      (firework.update^[1] ⟨[], 0⟩).particles.length :=
  (burst_count_nonincreasing 0 0 ⟨0, 0, fun _ => ⟨0, 0, 0, 0, 0⟩⟩ ⟨[], 0⟩ 1 2
    (by decide)).2.2

/-- Claim C1, counterexample: in the ANSI variant's `explode` loop a
live particle whose updated position rounds outside the 10×10 grid has
its position and `vy` updated but its lifetime left at 5 instead of
being decremented to 4 (and it is dropped from the survivor list). -/
theorem explode_lifetime_counterexample :
    (explodeStep 10 10 ⟨-20, 0, 0, 0, 0, 0, 5⟩).lifetime = 5
    ∧ (explodeStep 10 10 ⟨-20, 0, 0, 0, 0, 0, 5⟩).lifetime ≠
        (⟨-20, 0, 0, 0, 0, 0, 5⟩ : particle).lifetime - 1
    ∧ explodeFrame 10 10 [⟨-20, 0, 0, 0, 0, 0, 5⟩] = [] := by
  refine ⟨?_, ?_, ?_⟩ <;>
    norm_num [explodeStep, explodeFrame, moveParticle, inBoundsQ, goRound]

/-- Claim C1, amended: the tcell variant's particle step unconditionally
adds `vx` to `x`, `vy` to `y`, the gravity constant `0.1` to `vy`, and
decrements the lifetime by exactly 1, with `vx` unchanged across any
number of steps; the ANSI `explode` step agrees with it whenever the
particle is alive and its updated rounded position is inside the
grid. -/
theorem particle_step_physics (p : particle) (w h : ℤ) (k : ℕ)
    (hl : 0 < p.lifetime) (hb : inBoundsQ w h (moveParticle p)) :
    (stepParticle p).x = p.x + p.vx
    ∧ (stepParticle p).y = p.y + p.vy
    ∧ (stepParticle p).vy = p.vy + 1/10
    ∧ (stepParticle p).vx = p.vx
    ∧ (stepParticle p).lifetime = p.lifetime - 1
    ∧ (stepParticle^[k] p).vx = p.vx
    ∧ explodeStep w h p = stepParticle p := by
  refine ⟨rfl, rfl, rfl, rfl, rfl, ?_, ?_⟩
  · induction k with
    | zero => rfl
    | succ k ih => rw [Function.iterate_succ_apply']; exact ih
  · simp only [explodeStep, if_pos hl, if_pos hb]
    rfl

/-- Claim C1, witness: the amended step equations at a live in-bounds
particle. -/
theorem particle_step_physics_witness :
    (stepParticle ⟨2, 2, 0, 0, 0, 0, 5⟩).lifetime =
      (⟨2, 2, 0, 0, 0, 0, 5⟩ : particle).lifetime - 1
    ∧ explodeStep 10 10 ⟨2, 2, 0, 0, 0, 0, 5⟩ = stepParticle ⟨2, 2, 0, 0, 0, 0, 5⟩ :=
  ⟨(particle_step_physics ⟨2, 2, 0, 0, 0, 0, 5⟩ 10 10 3 (by decide)
      (by norm_num [inBoundsQ, moveParticle, goRound])).2.2.2.2.1,
   (particle_step_physics ⟨2, 2, 0, 0, 0, 0, 5⟩ 10 10 3 (by decide)
      (by norm_num [inBoundsQ, moveParticle, goRound])).2.2.2.2.2.2⟩

theorem rocket_step_iterate (r : rocket) (k : ℕ) :
    (rocket.step^[k] r).y = r.y - k ∧ (rocket.step^[k] r).targetY = r.targetY := by
  induction k with
  | zero => simp
  | succ k ih =>
    rw [Function.iterate_succ_apply']
    refine ⟨?_, ih.2⟩
    rw [rocket.step, ih.1]
    push_cast
    ring

/-- Claim C3: while a rocket is above its target the tick decrements its
row by exactly 1 and keeps it, on the first tick with `y ≤ targetY` it
is removed and exactly one burst is created at its current position in
that same tick, and a rocket with `y = 10, targetY = 3` stays strictly
above its target for 7 steps and reaches `y ≤ targetY` at step 7. -/
theorem rocket_lifecycle :
    (∀ (ts : ℕ → fireworkDraw) (r : rocket) (l : List firework),
      r.targetY < r.y →
        (tick ts ⟨[r], l⟩).rockets = [rocket.step r]
        ∧ (rocket.step r).y = r.y - 1
        ∧ (tick ts ⟨[r], l⟩).fireworks = advanceFireworks l)
    ∧ (∀ (ts : ℕ → fireworkDraw) (r : rocket) (l : List firework),
      r.y ≤ r.targetY →
        (tick ts ⟨[r], l⟩).rockets = []
        ∧ explodedBursts ts 0 [r] = [newFirework (r.x : ℚ) (r.y : ℚ) (ts 0)]
        ∧ (tick ts ⟨[r], l⟩).fireworks
            = advanceFireworks (l ++ [newFirework (r.x : ℚ) (r.y : ℚ) (ts 0)])
        ∧ ∀ p ∈ (newFirework (r.x : ℚ) (r.y : ℚ) (ts 0)).particles,
            p.x = (r.x : ℚ) ∧ p.y = (r.y : ℚ))
    ∧ (∀ (r : rocket) (k : ℕ),
        (rocket.step^[k] r).y = r.y - k ∧ (rocket.step^[k] r).targetY = r.targetY)
    ∧ (∀ r : rocket, r.y = 10 → r.targetY = 3 →
        (rocket.step^[7] r).y ≤ r.targetY
        ∧ ∀ k : ℕ, k < 7 → r.targetY < (rocket.step^[k] r).y) := by
  refine ⟨?_, ?_, rocket_step_iterate, ?_⟩
  · intro ts r l h
    refine ⟨?_, rfl, ?_⟩
    · simp [tick, h]
    · simp [tick, explodedBursts, h]
  · intro ts r l h
    have h' : ¬ (r.targetY < r.y) := not_lt.mpr h
    refine ⟨?_, ?_, ?_, ?_⟩
    · simp [tick, h']
    · simp [explodedBursts, h']
    · simp [tick, explodedBursts, h']
    · rintro p hp
      simp only [newFirework, List.mem_map, List.mem_range] at hp
      obtain ⟨i, -, rfl⟩ := hp
      exact ⟨rfl, rfl⟩
  · intro r h10 h3
    refine ⟨?_, ?_⟩
    · rw [(rocket_step_iterate r 7).1, h10, h3]
      norm_num
    · intro k hk
      rw [(rocket_step_iterate r k).1, h10, h3]
      omega

/-- Claim C3, witness: the concrete `y = 10, targetY = 3` rocket from
the claim. -/
theorem rocket_lifecycle_witness :
    (rocket.step^[7] ⟨5, 10, 3, 0, 0⟩).y ≤ (⟨5, 10, 3, 0, 0⟩ : rocket).targetY :=
  (rocket_lifecycle.2.2.2 ⟨5, 10, 3, 0, 0⟩ rfl rfl).1

/-- Claim C5, counterexample: with grid height 12 and tape value 3 both
variants' random target row equals 6 = 12/2, which is not in the upper
half of the grid, refuting "targetY < height/2 for every height and
draw". -/
theorem launch_not_upper_half_counterexample :
    launchTargetY 12 3 = 6 ∧ ¬ (launchTargetY 12 3 < 12 / 2)
    ∧ explosionYdraw 12 3 = 6 ∧ ¬ (explosionYdraw 12 3 < 12 / 2) := by decide

/-- Claim C5, amended: for widths at least 5 the auto-launch column is
uniform over `[2, width-3]` (every value in the range is attained), and
for heights at least 3 the target row is uniform over
`[height/4, height/4 + height/3 - 1]` (integer division), a range that
need not lie inside the upper half of the grid. -/
theorem launch_ranges (w h d : ℕ) (hw : 5 ≤ w) (hh : 3 ≤ h) :
    (2 ≤ launchX w d ∧ launchX w d ≤ w - 3)
    ∧ (∀ v, 2 ≤ v → v ≤ w - 3 → ∃ e, launchX w e = v)
    ∧ (h / 4 ≤ launchTargetY h d ∧ launchTargetY h d ≤ h / 4 + h / 3 - 1)
    ∧ (∀ v, h / 4 ≤ v → v ≤ h / 4 + h / 3 - 1 → ∃ e, launchTargetY h e = v) := by
  have hx : d % (w - 4) < w - 4 := Nat.mod_lt _ (by omega)
  have hy : d % (h / 3) < h / 3 := Nat.mod_lt _ (by omega)
  refine ⟨⟨?_, ?_⟩, ?_, ⟨?_, ?_⟩, ?_⟩
  · simp [launchX, intn]
  · simp only [launchX, intn]; omega
  · intro v h2 h3
    refine ⟨v - 2, ?_⟩
    simp only [launchX, intn]
    rw [Nat.mod_eq_of_lt (by omega)]
    omega
  · simp [launchTargetY, intn]
  · simp only [launchTargetY, intn]; omega
  · intro v h4 h5
    refine ⟨v - h / 4, ?_⟩
    simp only [launchTargetY, intn]
    rw [Nat.mod_eq_of_lt (by omega)]
    omega

/-- Claim C5, witness: the launch column range on a width-10, height-12
grid. -/
theorem launch_ranges_witness :
    2 ≤ launchX 10 3 ∧ launchX 10 3 ≤ 10 - 3 :=
  (launch_ranges 10 12 3 (by decide) (by decide)).1

/-- Claim C6: a fresh burst has between 20 and 49 particles (all counts
in that range attainable), and each particle has lifetime in `[10, 29]`
(all values attainable), the burst's single shared color, speed
`2u + 1 ∈ [1, 3)` for the unit draw `u`, `vx = speed·cos(angle)` and
`vy = speed·sin(angle)·0.5`. -/
theorem burst_init_distribution (x y : ℚ) (t : fireworkDraw)
    (hs : ∀ i, 0 ≤ (t.pdraws i).speedU ∧ (t.pdraws i).speedU < 1) :
    (20 ≤ (newFirework x y t).particles.length
      ∧ (newFirework x y t).particles.length ≤ 49)
    ∧ (∀ n, 20 ≤ n → n ≤ 49 → ∃ u : fireworkDraw,
        (newFirework x y u).particles.length = n)
    ∧ (∀ p ∈ (newFirework x y t).particles,
        (10 ≤ p.lifetime ∧ p.lifetime ≤ 29)
        ∧ p.color = burstColor t
        ∧ ∃ i : ℕ,
            (1 ≤ drawSpeed (t.pdraws i) ∧ drawSpeed (t.pdraws i) < 3)
            ∧ p.vx = drawSpeed (t.pdraws i) * (t.pdraws i).cosA
            ∧ p.vy = drawSpeed (t.pdraws i) * (t.pdraws i).sinA * (1/2))
    ∧ (∀ n : ℤ, 10 ≤ n → n ≤ 29 → ∃ d : particleDraw, ∀ c : Fin 7,
        (mkParticle x y c d).lifetime = n) := by
  have hcount : (newFirework x y t).particles.length = t.countD % 30 + 20 := by
    simp [newFirework, burstCount, intn]
  have hc30 : t.countD % 30 < 30 := Nat.mod_lt _ (by omega)
  refine ⟨⟨by omega, by omega⟩, ?_, ?_, ?_⟩
  · intro n h20 h49
    refine ⟨⟨n - 20, 0, fun _ => ⟨0, 0, 0, 0, 0⟩⟩, ?_⟩
    have : (n - 20) % 30 = n - 20 := Nat.mod_eq_of_lt (by omega)
    simp only [newFirework, burstCount, intn, List.length_map, List.length_range]
    omega
  · rintro p hp
    simp only [newFirework, List.mem_map, List.mem_range] at hp
    obtain ⟨i, -, rfl⟩ := hp
    obtain ⟨hs0, hs1⟩ := hs i
    have h20 : (t.pdraws i).lifeD % 20 < 20 := Nat.mod_lt _ (by omega)
    refine ⟨⟨?_, ?_⟩, rfl, i, ⟨?_, ?_⟩, rfl, rfl⟩
    · simp only [mkParticle]; omega
    · simp only [mkParticle]; omega
    · unfold drawSpeed; linarith
    · unfold drawSpeed; linarith
  · intro n hn1 hn2
    refine ⟨⟨0, 0, 0, 0, (n - 10).toNat⟩, fun c => ?_⟩
    simp only [mkParticle]
    rw [Nat.mod_eq_of_lt (by omega)]
    omega

/-- Claim C6, witness: the particle-count range at a concrete tape whose
unit draws are all 0. -/
theorem burst_init_distribution_witness :
    20 ≤ (newFirework 0 0 ⟨0, 0, fun _ => ⟨0, 0, 0, 0, 0⟩⟩).particles.length
    ∧ (newFirework 0 0 ⟨0, 0, fun _ => ⟨0, 0, 0, 0, 0⟩⟩).particles.length ≤ 49 :=
  (burst_init_distribution 0 0 ⟨0, 0, fun _ => ⟨0, 0, 0, 0, 0⟩⟩
    (fun _ => ⟨le_refl 0, zero_lt_one⟩)).1

/-- Claim C8, counterexample: the rocket spawned for a click at `(5, 3)`
on a height-10 grid starts at row `8 = height - 2`, not at the bottom
row `height - 1 = 9`. -/
theorem click_start_row_counterexample :
    (newRocket 5 3 10 0).y = 8 ∧ (newRocket 5 3 10 0).y ≠ 10 - 1 := by decide

/-- Claim C8, amended: a click at `(x, y)` appends exactly one new
rocket with `targetY = y` and starting row `height - 2` (one row above
the bottom row), and creates no burst. -/
theorem click_spawns_one_rocket (x y height : ℤ) (cd : ℕ) (s : simState) :
    (clickSpawn x y height cd s).rockets = s.rockets ++ [newRocket x y height cd]
    ∧ (newRocket x y height cd).targetY = y
    ∧ (newRocket x y height cd).y = height - 2
    ∧ (clickSpawn x y height cd s).fireworks = s.fireworks :=
  ⟨rfl, rfl, rfl, rfl⟩

/-- Claim C10: in the tcell variant a stepped particle survives `update`
exactly when its decremented lifetime is positive — its position plays
no role, so an off-screen particle with positive lifetime is retained —
and the bounds test is applied only by the render pass, which emits one
cell per in-bounds particle. -/
theorem update_removal_policy (fw : firework) (w h : ℤ) (p : particle) :
    (p ∈ (firework.update fw).particles ↔
      (∃ q ∈ fw.particles, stepParticle q = p) ∧ 0 < p.lifetime)
    ∧ (∀ q ∈ fw.particles, 0 < (stepParticle q).lifetime →
        stepParticle q ∈ (firework.update fw).particles)
    ∧ (∀ c, c ∈ renderCells w h fw ↔
        ∃ q ∈ fw.particles, inBoundsQ w h q
          ∧ c = (goRound q.x, goRound q.y, q.char, q.color)) := by
  have hmem : ∀ p' : particle, p' ∈ (firework.update fw).particles ↔
      (∃ q ∈ fw.particles, stepParticle q = p') ∧ 0 < p'.lifetime := by
    intro p'
    simp [firework.update, List.mem_filter]
  refine ⟨hmem p, ?_, ?_⟩
  · intro q hq hlt
    exact (hmem _).mpr ⟨⟨q, hq, rfl⟩, hlt⟩
  · intro c
    simp only [renderCells, List.mem_filterMap]
    constructor
    · rintro ⟨q, hq, hc⟩
      by_cases hb : inBoundsQ w h q
      · rw [if_pos hb] at hc
        exact ⟨q, hq, hb, (Option.some_inj.mp hc).symm⟩
      · rw [if_neg hb] at hc
        exact absurd hc (Option.noConfusion)
    · rintro ⟨q, hq, hb, rfl⟩
      exact ⟨q, hq, by rw [if_pos hb]⟩

/-- Claim C10, witness: a particle far outside a 10×10 grid with
positive remaining lifetime survives `update`. -/
theorem update_removal_policy_witness :
    stepParticle ⟨50, 50, 0, 0, 0, 0, 5⟩ ∈
      (firework.update ⟨[⟨50, 50, 0, 0, 0, 0, 5⟩], 0⟩).particles :=
  (update_removal_policy ⟨[⟨50, 50, 0, 0, 0, 0, 5⟩], 0⟩ 10 10
      (stepParticle ⟨50, 50, 0, 0, 0, 0, 5⟩)).2.1
    ⟨50, 50, 0, 0, 0, 0, 5⟩ (by simp) (by decide)

end Fireworks
